import Mathlib

/-!
# go-serverless: the user controller and the response formatter

A shallow embedding of `pkg/user/user.go` and `pkg/handlers/api_response.go`.

* Go results `(*T, error)` are `Except String T`: `.error l` is `(nil, errors.New(l))`,
  `.ok v` is `(&v, nil)`.
* The DynamoDB client is explicit state passing over `Store`; every API call is
  appended to `Store.calls`, so "makes no call" is "leaves the store unchanged".
* Library code the program calls (`reflect.StructTag`, `dynamodbattribute`,
  the DynamoDB table itself) is modelled after its documented behaviour, and
  `json.Unmarshal`, `json.Marshal` and `validators.IsEmailValid` are parameters.
-/

namespace GoServerless

deriving instance DecidableEq for Except

/-! ## Error labels (`user.go`, the `var` block) -/

def ErrorFailedToFetchRecord : String := "Failed to fetch record"
def ErrorInvalidUserData : String := "Invalid user data"
def ErrorFailedToUnmarshalRecord : String := "Failed to unmarshal record"
def ErrorInvalidEmail : String := "Invalid Email"
def ErrorCouldNotMarshalItem : String := "Could not marshal item"
def ErrorCouldNotDeleteItem : String := "Could not delete item"
def ErrorCouldNotPutDynamoItem : String := "Could not dynamo put item"
def ErrorUserAlreadyExists : String := "User already exists"
def ErrorUserDoesNotExist : String := "User does not exist"

/-! ## The `User` struct and its field tags -/

/-- User: the three string fields of `type User struct`. -/
structure User where
  Email : String
  FirstName : String
  LastName : String
deriving DecidableEq, Repr

/-- One struct field as `reflect` reports it: the Go field name and the raw tag. -/
structure StructField where
  Name : String
  Tag : String
deriving DecidableEq, Repr

/-- The fields of `User` in declaration order, each with the tag text that stands
between the back quotes in `user.go`: there is a blank after `json:`. -/
def userFields : List StructField :=
  [ ⟨"Email", "json: \"email\""⟩,
    ⟨"FirstName", "json: \"firstName\""⟩,
    ⟨"LastName", "json: \"lastName\""⟩ ]

/-- Values of the fields of a `User`, in declaration order. -/
def User.values (u : User) : List String := [u.Email, u.FirstName, u.LastName]

/-- Assignment to the field at a declaration index. -/
def User.set (u : User) (i : Nat) (s : String) : User :=
  match i with
  | 0 => { u with Email := s }
  | 1 => { u with FirstName := s }
  | 2 => { u with LastName := s }
  | _ => u

/-! ## `reflect.StructTag.Lookup` (Go standard library) -/

def dquote : Char := Char.ofNat 34
def backslash : Char := Char.ofNat 92
def colon : Char := Char.ofNat 58
def blank : Char := Char.ofNat 32

/-- A byte that may stand in a tag key: above the blank, and none of colon,
double quote and DEL. -/
def isKeyChar (c : Char) : Bool :=
  decide (32 < c.toNat) && c != colon && c != dquote && decide (c.toNat ≠ 127)

/-- Scan of a quoted value whose opening quote is already consumed: the raw
text up to the closing quote and what follows it. A backslash skips the next
character; running off the end is a syntax error. -/
def scanQuoted : List Char → Option (List Char × List Char)
  | [] => none
  | c :: rest =>
    if c = dquote then some ([], rest)
    else if c = backslash then
      match rest with
      | [] => none
      | e :: rest2 => (scanQuoted rest2).map fun p => (c :: e :: p.1, p.2)
    else (scanQuoted rest).map fun p => (c :: p.1, p.2)

/-- The text of a quoted value, as `strconv.Unquote` gives it for a value free
of escapes. A value holding a backslash or a line break is reported as a
failure: escape sequences are not interpreted here (no tag of this program
has one). -/
def unquote (raw : List Char) : Option String :=
  if raw.any (fun c => c == backslash || c == Char.ofNat 10) then none
  else some (String.mk raw)

/-- The loop of `StructTag.Lookup`: skip blanks, scan a key up to the colon,
require the colon to be followed at once by a double quote, scan the quoted
value, and either return it or go on with the rest of the tag. Any syntax
error ends the search without a value. -/
def lookupLoop (key : List Char) : Nat → List Char → Option String
  | 0, _ => none
  | fuel + 1, tag =>
    let tag1 := tag.dropWhile (fun c => c == blank)
    if tag1.isEmpty then none
    else
      let name := tag1.takeWhile isKeyChar
      match tag1.dropWhile isKeyChar with
      | c1 :: c2 :: rest =>
        if name.isEmpty || c1 != colon || c2 != dquote then none
        else
          match scanQuoted rest with
          | none => none
          | some (raw, tag2) =>
            if key = name then unquote raw else lookupLoop key fuel tag2
      | _ => none

/-- Lookup of a key in a struct tag: `some v` is `(v, true)`, `none` is `("", false)`. -/
def StructTag.Lookup (tag key : String) : Option String :=
  lookupLoop key.data (tag.length + 1) tag.data

/-- Get: the value of `Lookup`, or the empty string. -/
def StructTag.Get (tag key : String) : String :=
  (StructTag.Lookup tag key).getD ""

/-! ## `dynamodbattribute` (aws-sdk-go): names and values of the item -/

/-- DynamoDB attribute values: the string, the boolean and the null variant. -/
inductive AttributeValue where
  | S (s : String)
  | BOOL (b : Bool)
  | NULL
deriving DecidableEq, Repr

/-- An item or a key, `map[string]*dynamodb.AttributeValue`, as an association
list; the order of the list stands for the order in which Go ranges the map. -/
abbrev Item := List (String × AttributeValue)

/-- The tag text the encoder reads for a field: the `dynamodbav` tag, and the
`json` tag when there is none (`SupportJSONTags` is on by default). -/
def tagText (f : StructField) : String :=
  let av := StructTag.Get f.Tag "dynamodbav"
  if av.length ≠ 0 then av else StructTag.Get f.Tag "json"

/-- The name part of the tag text: what stands before the first comma (the
options after it are not interpreted). -/
def tagName (f : StructField) : String :=
  String.mk ((tagText f).data.takeWhile (fun c => c != Char.ofNat 44))

/-- Whether the tag `-` removes the field from the item. -/
def tagIgnore (f : StructField) : Bool := tagName f == "-"

/-- The attribute name of a field: the name of its tag, or the Go field name
when the tag gives none. -/
def attrName (f : StructField) : String :=
  if (tagName f).length ≠ 0 then tagName f else f.Name

/-- Encoding of a string field: the empty string is written as `NULL`. -/
def encodeString (s : String) : AttributeValue :=
  if s.length = 0 then .NULL else .S s

/-- MarshalMap on a `User`: one attribute per field that is not ignored, in
declaration order. It has no failing case for a struct of strings. -/
def MarshalMap (u : User) : Except String Item :=
  .ok (((userFields.zip u.values).filter (fun p => !tagIgnore p.1)).map
    (fun p => (attrName p.1, encodeString p.2)))

/-- Equality of two names up to the case of ASCII letters (`strings.EqualFold`
on ASCII text). -/
def equalFold (a b : String) : Bool :=
  a.data.map Char.toLower == b.data.map Char.toLower

/-- The decoder's `fieldByName`: the index of the field whose attribute name is
`name` exactly, else of the first field whose attribute name equals `name` up
to case. -/
def fieldByName (fields : List StructField) (name : String) : Option Nat :=
  let live := fields.enum.filter (fun p => !tagIgnore p.2)
  match live.find? (fun p => attrName p.2 == name) with
  | some p => some p.1
  | none => (live.find? (fun p => equalFold (attrName p.2) name)).map Prod.fst

/-- Decoding of one attribute value into a string field: `S` sets it, `NULL`
sets the zero value, `BOOL` is an `UnmarshalTypeError`. -/
def decodeString : AttributeValue → Except String String
  | .S s => .ok s
  | .NULL => .ok ""
  | .BOOL _ => .error "UnmarshalTypeError"

/-- The decoder's loop over the entries of the item: an entry that names no
field is skipped, the first decoding error is returned. -/
def decodeEntries : Item → User → Except String User
  | [], u => .ok u
  | (k, av) :: rest, u =>
    match fieldByName userFields k with
    | none => decodeEntries rest u
    | some i =>
      match decodeString av with
      | .error e => .error e
      | .ok s => decodeEntries rest (u.set i s)

/-- UnmarshalMap into `new(User)`: the decoder starts from the zero value, and
an empty (or nil) item leaves it untouched. -/
def UnmarshalMap (item : Item) : Except String User :=
  decodeEntries item ⟨"", "", ""⟩

/-! ## The DynamoDB table behind `dynamodbiface.DynamoDBAPI` -/

/-- One call on the client, as recorded in `Store.calls`. -/
inductive StoreCall where
  | GetItem (table : String) (key : Item)
  | PutItem (table : String) (item : Item)
  | DeleteItem (table : String) (key : Item)
deriving DecidableEq, Repr

/-- The client and the one table it serves: the table's name, the name of its
hash key attribute (of type string), the stored items, three switches that make
the service fail a kind of call (an outage), and the calls made so far. -/
structure Store where
  tableName : String
  keyAttr : String
  items : List Item
  failGet : Bool
  failPut : Bool
  failDelete : Bool
  calls : List StoreCall
deriving DecidableEq, Repr

structure GetItemInput where
  Key : Item
  TableName : String

structure GetItemOutput where
  Item : Item
deriving DecidableEq, Repr

structure PutItemInput where
  Item : Item
  TableName : String

structure DeleteItemInput where
  Key : Item
  TableName : String

/-- The value of the hash key of an item: its key attribute, when that is a
non-empty string. -/
def keyOf (keyAttr : String) (item : Item) : Option String :=
  match item.lookup keyAttr with
  | some (.S v) => if v.length ≠ 0 then some v else none
  | _ => none

/-- A key as the table accepts it: exactly the hash key attribute, holding a
non-empty string. Anything else is a `ValidationException`. -/
def validKey (keyAttr : String) (key : Item) : Option String :=
  match key with
  | [(n, .S v)] => if n = keyAttr ∧ v.length ≠ 0 then some v else none
  | _ => none

/-- Whether the table holds a record under the key value `e`. -/
def Store.hasRecord (st : Store) (e : String) : Bool :=
  st.items.any (fun it => keyOf st.keyAttr it == some e)

/-- Recording of a call. -/
def Store.record (st : Store) (c : StoreCall) : Store :=
  { st with calls := st.calls ++ [c] }

/-- GetItem: fails on an outage, an unknown table or a key that does not match
the schema; otherwise returns the stored item, or an empty item when there is
none. -/
def GetItem (st : Store) (input : GetItemInput) : Except String GetItemOutput × Store :=
  let st1 := st.record (.GetItem input.TableName input.Key)
  if st.failGet then (.error "ServiceUnavailable", st1)
  else if input.TableName ≠ st.tableName then (.error "ResourceNotFoundException", st1)
  else
    match validKey st.keyAttr input.Key with
    | none => (.error "ValidationException", st1)
    | some v =>
      (.ok ⟨(st.items.find? (fun it => keyOf st.keyAttr it == some v)).getD []⟩, st1)

/-- PutItem: fails on an outage, an unknown table or an item without a valid
hash key; otherwise the item replaces whatever was stored under its key. -/
def PutItem (st : Store) (input : PutItemInput) : Except String Unit × Store :=
  let st1 := st.record (.PutItem input.TableName input.Item)
  if st.failPut then (.error "ServiceUnavailable", st1)
  else if input.TableName ≠ st.tableName then (.error "ResourceNotFoundException", st1)
  else
    match keyOf st.keyAttr input.Item with
    | none => (.error "ValidationException", st1)
    | some v =>
      (.ok (), { st1 with
        items := input.Item :: st.items.filter (fun it => keyOf st.keyAttr it != some v) })

/-- DeleteItem: fails on an outage, an unknown table or a key that does not
match the schema; otherwise removes what is stored under the key, and succeeds
also when nothing is. -/
def DeleteItem (st : Store) (input : DeleteItemInput) : Except String Unit × Store :=
  let st1 := st.record (.DeleteItem input.TableName input.Key)
  if st.failDelete then (.error "ServiceUnavailable", st1)
  else if input.TableName ≠ st.tableName then (.error "ResourceNotFoundException", st1)
  else
    match validKey st.keyAttr input.Key with
    | none => (.error "ValidationException", st1)
    | some v =>
      (.ok (), { st1 with
        items := st.items.filter (fun it => keyOf st.keyAttr it != some v) })

/-! ## The request and what the controller takes from outside -/

/-- The fields of `events.APIGatewayProxyRequest` the program reads. -/
structure APIGatewayProxyRequest where
  HTTPMethod : String
  Body : String
  QueryStringParameters : List (String × String)

/-- Index of a `map[string]string`: the zero value for a missing key. -/
def mapIndex (m : List (String × String)) (k : String) : String :=
  (m.lookup k).getD ""

/-- What the controller calls outside this model: `json.Unmarshal` of a body
into a fresh `User` (`none` is a decoding error) and `validators.IsEmailValid`,
whose package is not among the sources. -/
structure Deps where
  jsonUnmarshal : String → Option User
  IsEmailValid : String → Bool

/-! ## `pkg/user/user.go` -/

/-- FetchUser: one `GetItem` under the key `email`, then `UnmarshalMap`; both
failures return the label `ErrorFailedToFetchRecord`. -/
def FetchUser (email tablename : String) (dynaClient : Store) :
    Except String User × Store :=
  let input : GetItemInput := ⟨[("email", .S email)], tablename⟩
  match GetItem dynaClient input with
  | (.error _, st1) => (.error ErrorFailedToFetchRecord, st1)
  | (.ok res, st1) =>
    match UnmarshalMap res.Item with
    | .error _ => (.error ErrorFailedToFetchRecord, st1)
    | .ok item => (.ok item, st1)

/-- The marshal-and-put tail shared by `CreateUser` and `UpdateUser`. -/
def putUser (u : User) (tablename : String) (dynaClient : Store) :
    Except String User × Store :=
  match MarshalMap u with
  | .error _ => (.error ErrorCouldNotMarshalItem, dynaClient)
  | .ok av =>
    match PutItem dynaClient ⟨av, tablename⟩ with
    | (.error _, st2) => (.error ErrorCouldNotPutDynamoItem, st2)
    | (.ok _, st2) => (.ok u, st2)

/-- CreateUser: decode, validate the email, reject when `FetchUser` returned a
user with a non-empty email (its error is discarded), then marshal and put. -/
def CreateUser (d : Deps) (req : APIGatewayProxyRequest) (tablename : String)
    (dynaClient : Store) : Except String User × Store :=
  match d.jsonUnmarshal req.Body with
  | none => (.error ErrorInvalidUserData, dynaClient)
  | some u =>
    if !d.IsEmailValid u.Email then (.error ErrorInvalidUserData, dynaClient)
    else
      match FetchUser u.Email tablename dynaClient with
      | (.ok currentUser, st1) =>
        if currentUser.Email.length ≠ 0 then (.error ErrorUserAlreadyExists, st1)
        else putUser u tablename st1
      | (.error _, st1) => putUser u tablename st1

/-- UpdateUser: decode (no email validation), reject when `FetchUser` returned
a user with an empty email (its error is discarded), then marshal and put. -/
def UpdateUser (d : Deps) (req : APIGatewayProxyRequest) (tablename : String)
    (dynaClient : Store) : Except String User × Store :=
  match d.jsonUnmarshal req.Body with
  | none => (.error ErrorInvalidEmail, dynaClient)
  | some u =>
    match FetchUser u.Email tablename dynaClient with
    | (.ok currentUser, st1) =>
      if currentUser.Email.length = 0 then (.error ErrorUserDoesNotExist, st1)
      else putUser u tablename st1
    | (.error _, st1) => putUser u tablename st1

/-- DeleteUser: one `DeleteItem` under the key `email` taken from the query
parameters; `none` is the nil error. -/
def DeleteUser (req : APIGatewayProxyRequest) (tablename : String)
    (dynaClient : Store) : Option String × Store :=
  let email := mapIndex req.QueryStringParameters "email"
  let input : DeleteItemInput := ⟨[("email", .S email)], tablename⟩
  match DeleteItem dynaClient input with
  | (.error _, st1) => (some ErrorCouldNotDeleteItem, st1)
  | (.ok _, st1) => (none, st1)

/-! ## `pkg/handlers/api_response.go` -/

structure APIGatewayProxyResponse where
  StatusCode : Int
  Headers : List (String × String)
  MultiValueHeaders : List (String × List String)
  Body : String
  IsBase64Encoded : Bool
deriving DecidableEq, Repr

/-- The bytes `json.Marshal` hands back next to its error: the encoding, or a
nil slice (the empty string once converted) when it fails. -/
def marshalBytes (r : Except String String) : String :=
  match r with
  | .ok b => b
  | .error _ => ""

/-- apiResponse: the envelope with the status, the one header, and the body
`string(stringBody)`; the error of `json.Marshal` is discarded and the returned
error (second component) is always nil. `jsonMarshal` is `json.Marshal` on the
body's type. -/
def apiResponse {β : Type} (jsonMarshal : β → Except String String) (status : Int)
    (body : β) : APIGatewayProxyResponse × Option String :=
  let resp : APIGatewayProxyResponse :=
    { StatusCode := status
      Headers := [("Content-Type", "application/json")]
      MultiValueHeaders := []
      Body := ""
      IsBase64Encoded := false }
  let resp := { resp with StatusCode := status }
  let stringBody := marshalBytes (jsonMarshal body)
  let resp := { resp with Body := stringBody }
  (resp, none)

/-! ## Concrete inputs used by the evaluations below -/

/-- A value handed to `apiResponse`: a text, a `User`, or a channel (a Go value
`json.Marshal` rejects with `UnsupportedTypeError`). -/
inductive SampleBody where
  | text (s : String)
  | user (u : User)
  | channel

/-- An instance of `json.Marshal` on `SampleBody`, meant for texts and field
values without characters that JSON escapes: a text between double quotes, a
`User` as an object keyed by its Go field names, and an error for a channel. -/
def sampleMarshal : SampleBody → Except String String
  | .text s => .ok ("\"" ++ s ++ "\"")
  | .user u => .ok ("\x7b\"Email\":\"" ++ u.Email ++ "\",\"FirstName\":\"" ++ u.FirstName
      ++ "\",\"LastName\":\"" ++ u.LastName ++ "\"\x7d")
  | .channel => .error "json: unsupported type: chan int"

/-- The user of the scenarios in the specification. -/
def sampleUser : User := ⟨"a@b.com", "A", "B"⟩

/-- The body of the scenarios in the specification. -/
def sampleBody : String :=
  "\x7b\"email\":\"a@b.com\",\"firstName\":\"A\",\"lastName\":\"B\"\x7d"

/-- A well-formed body whose email has no at sign. -/
def noAtBody : String :=
  "\x7b\"email\":\"nobody\",\"firstName\":\"A\",\"lastName\":\"B\"\x7d"

/-- Modelled from the spec: `validators.IsEmailValid` is not among the sources;
the specification asks for a local part, an at sign and a domain with a dot,
and no white space. This instance checks exactly that shape. -/
def sampleIsEmailValid (s : String) : Bool :=
  let cs := s.data
  let loc := cs.takeWhile (fun c => c != Char.ofNat 64)
  let dom := (cs.dropWhile (fun c => c != Char.ofNat 64)).drop 1
  !cs.any Char.isWhitespace && !loc.isEmpty && !dom.contains (Char.ofNat 64)
    && dom.contains (Char.ofNat 46)

/-- An instance of the outside functions: the decoder knows the two bodies above
and rejects every other text. -/
def sampleDeps : Deps where
  jsonUnmarshal := fun b =>
    if b = sampleBody then some sampleUser
    else if b = noAtBody then some ⟨"nobody", "A", "B"⟩
    else none
  IsEmailValid := sampleIsEmailValid

/-- The table name, the constant `tableName` of `cmd/main.go`. -/
def tableName : String := "LambdaInGoUser"

/-- An empty table keyed by `email`, the attribute `FetchUser` and `DeleteUser`
address it by. -/
def emptyStore : Store := ⟨tableName, "email", [], false, false, false, []⟩

/-- The same table holding the record of `sampleUser` under `email`. -/
def oneUserStore : Store :=
  { emptyStore with
    items := [[("email", .S "a@b.com"), ("firstName", .S "A"), ("lastName", .S "B")]] }

/-- The empty table during an outage of reads. -/
def readOutageStore : Store := { emptyStore with failGet := true }

/-- A table whose record for `a@b.com` holds a boolean where a name is expected. -/
def badRecordStore : Store :=
  { emptyStore with items := [[("email", .S "a@b.com"), ("firstName", .BOOL true)]] }

/-! ## Lemmas on the library model -/

theorem MarshalMap_eq (u : User) :
    MarshalMap u = .ok [("Email", encodeString u.Email),
      ("FirstName", encodeString u.FirstName), ("LastName", encodeString u.LastName)] := by
  have h1 : userFields.map tagIgnore = [false, false, false] := by decide
  have h2 : userFields.map attrName = ["Email", "FirstName", "LastName"] := by decide
  simp only [userFields, List.map_cons, List.map_nil, List.cons.injEq, and_true] at h1 h2
  obtain ⟨a1, a2, a3⟩ := h1
  obtain ⟨b1, b2, b3⟩ := h2
  simp [MarshalMap, userFields, User.values, a1, a2, a3, b1, b2, b3]

theorem UnmarshalMap_nil : UnmarshalMap [] = .ok ⟨"", "", ""⟩ := rfl

/-! ## The response formatter -/

/-- C1: for every status code and every value the encoder accepts, apiResponse
returns a nil error and a response with that status code, exactly the header
Content-Type: application/json, and the encoding of the value as body. -/
theorem apiResponse_serializable {β : Type} (jsonMarshal : β → Except String String)
    (status : Int) (v : β) (s : String) (h : jsonMarshal v = .ok s) :
    (apiResponse jsonMarshal status v).2 = none ∧
    (apiResponse jsonMarshal status v).1.StatusCode = status ∧
    (apiResponse jsonMarshal status v).1.Headers = [("Content-Type", "application/json")] ∧
    (apiResponse jsonMarshal status v).1.Body = s := by
  simp [apiResponse, marshalBytes, h]

theorem apiResponse_serializable_witness :
    sampleMarshal (.text "User already exists") = .ok "\"User already exists\"" ∧
    (apiResponse sampleMarshal 400 (.text "User already exists")).2 = none ∧
    (apiResponse sampleMarshal 400 (.text "User already exists")).1.StatusCode = 400 ∧
    (apiResponse sampleMarshal 400 (.text "User already exists")).1.Headers
      = [("Content-Type", "application/json")] ∧
    (apiResponse sampleMarshal 400 (.text "User already exists")).1.Body
      = "\"User already exists\"" :=
  ⟨by decide, apiResponse_serializable sampleMarshal 400 (.text "User already exists")
    "\"User already exists\"" (by decide)⟩

/-- C9: when the encoder fails on the body value, apiResponse still returns a
nil error and a response with the given status code and the Content-Type
header, and the body is the empty string. -/
theorem apiResponse_marshal_failure {β : Type} (jsonMarshal : β → Except String String)
    (status : Int) (v : β) (e : String) (h : jsonMarshal v = .error e) :
    (apiResponse jsonMarshal status v).2 = none ∧
    (apiResponse jsonMarshal status v).1.StatusCode = status ∧
    (apiResponse jsonMarshal status v).1.Headers = [("Content-Type", "application/json")] ∧
    (apiResponse jsonMarshal status v).1.Body = "" := by
  simp [apiResponse, marshalBytes, h]

theorem apiResponse_marshal_failure_witness :
    sampleMarshal .channel = .error "json: unsupported type: chan int" ∧
    (apiResponse sampleMarshal 200 .channel).2 = none ∧
    (apiResponse sampleMarshal 200 .channel).1.StatusCode = 200 ∧
    (apiResponse sampleMarshal 200 .channel).1.Headers
      = [("Content-Type", "application/json")] ∧
    (apiResponse sampleMarshal 200 .channel).1.Body = "" :=
  ⟨rfl, apiResponse_marshal_failure sampleMarshal 200 .channel
    "json: unsupported type: chan int" rfl⟩

/-! ## Rejection of invalid input -/

/-- C6: when the body does not decode into a User, or decodes into one whose
email the validator rejects, CreateUser returns no User and the error
"Invalid user data", and the client is returned as it was: no call was
recorded, neither the existence fetch nor the put. -/
theorem CreateUser_invalid_input (d : Deps) (req : APIGatewayProxyRequest)
    (tablename : String) (st : Store)
    (h : d.jsonUnmarshal req.Body = none ∨
      ∃ u, d.jsonUnmarshal req.Body = some u ∧ d.IsEmailValid u.Email = false) :
    CreateUser d req tablename st = (.error "Invalid user data", st) := by
  rcases h with h | ⟨u, hu, hv⟩
  · simp [CreateUser, h, ErrorInvalidUserData]
  · simp [CreateUser, hu, hv, ErrorInvalidUserData]

theorem CreateUser_invalid_input_witness :
    CreateUser sampleDeps ⟨"POST", "not json", []⟩ tableName emptyStore
      = (.error "Invalid user data", emptyStore) ∧
    CreateUser sampleDeps ⟨"POST", noAtBody, []⟩ tableName oneUserStore
      = (.error "Invalid user data", oneUserStore) :=
  ⟨CreateUser_invalid_input sampleDeps ⟨"POST", "not json", []⟩ tableName emptyStore
      (Or.inl (by decide)),
   CreateUser_invalid_input sampleDeps ⟨"POST", noAtBody, []⟩ tableName oneUserStore
      (Or.inr ⟨⟨"nobody", "A", "B"⟩, by decide, by decide⟩)⟩

/-- C7: on a body that does not decode into a User, UpdateUser returns no User
and the label "Invalid Email" with the client untouched, whereas CreateUser
returns "Invalid user data" for the same body: the two labels differ. -/
theorem UpdateUser_malformed_body (d : Deps) (req : APIGatewayProxyRequest)
    (tablename : String) (st : Store) (h : d.jsonUnmarshal req.Body = none) :
    UpdateUser d req tablename st = (.error "Invalid Email", st) ∧
    CreateUser d req tablename st = (.error "Invalid user data", st) ∧
    (UpdateUser d req tablename st).1 ≠ (CreateUser d req tablename st).1 := by
  simp [UpdateUser, CreateUser, h, ErrorInvalidEmail, ErrorInvalidUserData]

theorem UpdateUser_malformed_body_witness :
    UpdateUser sampleDeps ⟨"PUT", "not json", []⟩ tableName oneUserStore
      = (.error "Invalid Email", oneUserStore) ∧
    CreateUser sampleDeps ⟨"PUT", "not json", []⟩ tableName oneUserStore
      = (.error "Invalid user data", oneUserStore) ∧
    (UpdateUser sampleDeps ⟨"PUT", "not json", []⟩ tableName oneUserStore).1
      ≠ (CreateUser sampleDeps ⟨"PUT", "not json", []⟩ tableName oneUserStore).1 :=
  UpdateUser_malformed_body sampleDeps ⟨"PUT", "not json", []⟩ tableName oneUserStore
    (by decide)

/-! ## Lemmas on the table -/

theorem validKey_email (keyAttr e v : String)
    (h : validKey keyAttr [("email", .S e)] = some v) :
    keyAttr = "email" ∧ v = e ∧ e.length ≠ 0 := by
  simp only [validKey] at h
  split at h
  · rename_i hc
    simp at h
    exact ⟨hc.1.symm, h.symm, hc.2⟩
  · exact absurd h (by simp)

theorem GetItem_snd (st : Store) (input : GetItemInput) :
    (GetItem st input).2 = st.record (.GetItem input.TableName input.Key) := by
  unfold GetItem
  simp only []
  split
  · rfl
  · split
    · rfl
    · split <;> rfl

theorem GetItem_ok (st : Store) (e tablename : String) (out : GetItemOutput)
    (h : (GetItem st ⟨[("email", .S e)], tablename⟩).1 = .ok out) :
    st.keyAttr = "email" ∧
    out.Item = (st.items.find? (fun it => keyOf st.keyAttr it == some e)).getD [] := by
  unfold GetItem at h
  simp only [] at h
  split at h
  · simp at h
  · split at h
    · simp at h
    · split at h
      · simp at h
      · rename_i v hv
        obtain ⟨h1, h2, -⟩ := validKey_email _ _ _ hv
        subst h2
        simp at h
        exact ⟨h1, by rw [← h]⟩

theorem FetchUser_snd (e tablename : String) (st : Store) :
    (FetchUser e tablename st).2 = st.record (.GetItem tablename [("email", .S e)]) := by
  have h := GetItem_snd st ⟨[("email", .S e)], tablename⟩
  unfold FetchUser
  simp only []
  split
  · rename_i heq; rw [heq] at h; exact h
  · rename_i heq; rw [heq] at h
    split <;> exact h

theorem FetchUser_of_get (e tablename : String) (st : Store) (out : GetItemOutput)
    (h : (GetItem st ⟨[("email", .S e)], tablename⟩).1 = .ok out) :
    (FetchUser e tablename st).1 =
      match UnmarshalMap out.Item with
      | .error _ => .error ErrorFailedToFetchRecord
      | .ok item => .ok item := by
  unfold FetchUser
  simp only []
  split
  · rename_i heq; rw [heq] at h; simp at h
  · rename_i res st1 heq; rw [heq] at h
    simp at h
    subst h
    split <;> simp_all


theorem find_none_of_hasRecord (st : Store) (e : String)
    (h : st.hasRecord e = false) :
    st.items.find? (fun it => keyOf st.keyAttr it == some e) = none := by
  simp only [Store.hasRecord, List.any_eq_false] at h
  rw [List.find?_eq_none]
  exact h

theorem DeleteUser_ok (req : APIGatewayProxyRequest) (tablename : String) (st : Store)
    (h : (DeleteUser req tablename st).1 = none) :
    (DeleteUser req tablename st).2.keyAttr = st.keyAttr ∧
    (DeleteUser req tablename st).2.items = st.items.filter
      (fun it => keyOf st.keyAttr it != some (mapIndex req.QueryStringParameters "email")) := by
  unfold DeleteUser DeleteItem at h ⊢
  simp only [] at h ⊢
  split at h
  · simp at h
  · rename_i heq
    split at heq
    · simp at heq
    · split at heq
      · simp at heq
      · split at heq
        · simp at heq
        · rename_i v hv
          obtain ⟨-, h2, -⟩ := validKey_email _ _ _ hv
          subst h2
          simp only [hv]
          simp_all only [Store.record]
          simp at heq
          subst heq
          exact ⟨rfl, rfl⟩

/-! ## Delete then fetch -/

/-- C4: for every store state and every email e, when the delete issued by
DeleteUser with query parameter email = e does not fail and the get issued by
the following FetchUser(e) does not fail, FetchUser returns, without error, the
User whose three fields are empty, whether or not a record for e existed. -/
theorem DeleteUser_then_FetchUser (req : APIGatewayProxyRequest) (tablename : String)
    (st : Store) (e : String)
    (he : mapIndex req.QueryStringParameters "email" = e)
    (hdel : (DeleteUser req tablename st).1 = none)
    (hget : ∃ out, (GetItem (DeleteUser req tablename st).2
      ⟨[("email", .S e)], tablename⟩).1 = .ok out) :
    (FetchUser e tablename (DeleteUser req tablename st).2).1 = .ok ⟨"", "", ""⟩ := by
  obtain ⟨out, hout⟩ := hget
  obtain ⟨hk, hitems⟩ := DeleteUser_ok req tablename st hdel
  obtain ⟨-, hitem⟩ := GetItem_ok _ _ _ _ hout
  rw [FetchUser_of_get _ _ _ out hout]
  have hnone : (DeleteUser req tablename st).2.items.find?
      (fun it => keyOf (DeleteUser req tablename st).2.keyAttr it == some e) = none := by
    rw [List.find?_eq_none, hitems, hk, he]
    intro x hx
    simp only [List.mem_filter] at hx
    simpa using hx.2
  rw [hitem, hnone]
  rfl

theorem DeleteUser_then_FetchUser_witness :
    oneUserStore.hasRecord "a@b.com" = true ∧
    (FetchUser "a@b.com" tableName
      (DeleteUser ⟨"DELETE", "", [("email", "a@b.com")]⟩ tableName oneUserStore).2).1
      = .ok ⟨"", "", ""⟩ :=
  ⟨by decide, DeleteUser_then_FetchUser ⟨"DELETE", "", [("email", "a@b.com")]⟩ tableName
    oneUserStore "a@b.com" (by decide) (by decide) ⟨⟨[]⟩, by decide⟩⟩

/-! ## Update of a missing user -/

/-- C5, as amended: when the body decodes to a User whose email has no record
in the store and the get issued by the existence check does not fail,
UpdateUser fails with "User does not exist", and the client comes back with
that one GetItem call recorded and nothing else changed: no PutItem was made. -/
theorem UpdateUser_no_record (d : Deps) (req : APIGatewayProxyRequest)
    (tablename : String) (st : Store) (u : User)
    (hdec : d.jsonUnmarshal req.Body = some u)
    (hno : st.hasRecord u.Email = false)
    (hget : ∃ out, (GetItem st ⟨[("email", .S u.Email)], tablename⟩).1 = .ok out) :
    UpdateUser d req tablename st =
      (.error "User does not exist",
        st.record (.GetItem tablename [("email", .S u.Email)])) := by
  obtain ⟨out, hout⟩ := hget
  obtain ⟨-, hitem⟩ := GetItem_ok _ _ _ _ hout
  have h1 := FetchUser_of_get _ _ _ out hout
  have h2 := FetchUser_snd u.Email tablename st
  rw [hitem, find_none_of_hasRecord st _ hno] at h1
  rcases hf : FetchUser u.Email tablename st with ⟨r, st1⟩
  rw [hf] at h1 h2
  simp only [Option.getD_none, UnmarshalMap_nil] at h1 h2
  subst h1 h2
  simp [UpdateUser, hdec, hf, ErrorUserDoesNotExist]

theorem UpdateUser_no_record_witness :
    UpdateUser sampleDeps ⟨"PUT", sampleBody, []⟩ tableName emptyStore =
      (.error "User does not exist",
        emptyStore.record (.GetItem tableName [("email", .S sampleUser.Email)])) :=
  UpdateUser_no_record sampleDeps ⟨"PUT", sampleBody, []⟩ tableName emptyStore sampleUser
    (by decide) (by decide) ⟨⟨[]⟩, by decide⟩

/-- C5, as stated, fails during an outage of reads: the body decodes, the
table holds no record for its email, yet UpdateUser does not answer
"User does not exist": the failed fetch is discarded and a PutItem is issued. -/
theorem UpdateUser_read_outage_counterexample :
    sampleDeps.jsonUnmarshal sampleBody = some sampleUser ∧
    readOutageStore.hasRecord sampleUser.Email = false ∧
    (UpdateUser sampleDeps ⟨"PUT", sampleBody, []⟩ tableName readOutageStore).1
      = .error "Could not dynamo put item" ∧
    (UpdateUser sampleDeps ⟨"PUT", sampleBody, []⟩ tableName readOutageStore).1
      ≠ .error "User does not exist" ∧
    (UpdateUser sampleDeps ⟨"PUT", sampleBody, []⟩ tableName readOutageStore).2.calls
      = [.GetItem tableName [("email", .S "a@b.com")],
         .PutItem tableName [("Email", .S "a@b.com"), ("FirstName", .S "A"),
           ("LastName", .S "B")]] := by
  decide

/-! ## The failure labels of FetchUser -/

/-- C8: when the get succeeds and the returned item does not unmarshal into a
User, FetchUser returns no User and the label "Failed to fetch record", the
label of a failed get, and not "Failed to unmarshal record". -/
theorem FetchUser_unmarshal_failure (email tablename : String) (st : Store)
    (out : GetItemOutput) (e : String)
    (hget : (GetItem st ⟨[("email", .S email)], tablename⟩).1 = .ok out)
    (hun : UnmarshalMap out.Item = .error e) :
    (FetchUser email tablename st).1 = .error "Failed to fetch record" ∧
    (FetchUser email tablename st).1 ≠ .error ErrorFailedToUnmarshalRecord := by
  rw [FetchUser_of_get _ _ _ out hget, hun]
  simp [ErrorFailedToFetchRecord, ErrorFailedToUnmarshalRecord]

theorem FetchUser_unmarshal_failure_witness :
    (FetchUser "a@b.com" tableName readOutageStore).1 = .error "Failed to fetch record" ∧
    (FetchUser "a@b.com" tableName badRecordStore).1 = .error "Failed to fetch record" ∧
    (FetchUser "a@b.com" tableName badRecordStore).1 ≠ .error ErrorFailedToUnmarshalRecord :=
  ⟨by decide, FetchUser_unmarshal_failure "a@b.com" tableName badRecordStore
    ⟨[("email", .S "a@b.com"), ("firstName", .BOOL true)]⟩ "UnmarshalTypeError"
    (by decide) (by decide)⟩


/-! ## The item `CreateUser` writes and the key `FetchUser` reads -/

theorem keyOf_email_marshalled (u : User) :
    keyOf "email" [("Email", encodeString u.Email),
      ("FirstName", encodeString u.FirstName), ("LastName", encodeString u.LastName)]
      = none := by
  have h1 : ("email" == "Email") = false := by decide
  have h2 : ("email" == "FirstName") = false := by decide
  have h3 : ("email" == "LastName") = false := by decide
  simp [keyOf, List.lookup, h1, h2, h3]

theorem PutItem_snd_keyAttr (st : Store) (input : PutItemInput) :
    (PutItem st input).2.keyAttr = st.keyAttr := by
  unfold PutItem
  simp only []
  split
  · rfl
  · split
    · rfl
    · split <;> rfl

theorem putUser_keyAttr (u : User) (tablename : String) (st : Store) :
    (putUser u tablename st).2.keyAttr = st.keyAttr := by
  have h := PutItem_snd_keyAttr st
    ⟨[("Email", encodeString u.Email), ("FirstName", encodeString u.FirstName),
      ("LastName", encodeString u.LastName)], tablename⟩
  unfold putUser
  rw [MarshalMap_eq]
  simp only []
  split
  · rename_i heq; rw [heq] at h; exact h
  · rename_i heq; rw [heq] at h; exact h

theorem putUser_email_schema (u : User) (tablename : String) (st : Store)
    (h : st.keyAttr = "email") :
    (putUser u tablename st).1 = .error ErrorCouldNotPutDynamoItem ∧
    (putUser u tablename st).2.items = st.items := by
  unfold putUser
  rw [MarshalMap_eq]
  simp only [PutItem, h, keyOf_email_marshalled]
  split
  · rename_i heq
    split at heq <;> [skip; split at heq] <;> simp at heq <;>
      (obtain ⟨-, h2⟩ := heq; subst h2; exact ⟨rfl, rfl⟩)
  · rename_i heq
    split at heq <;> [skip; split at heq] <;> simp at heq

theorem putUser_not_already_exists (u : User) (tablename : String) (st : Store) :
    (putUser u tablename st).1 ≠ .error ErrorUserAlreadyExists := by
  unfold putUser
  rw [MarshalMap_eq]
  simp only []
  split <;> simp [ErrorCouldNotPutDynamoItem, ErrorUserAlreadyExists]

theorem FetchUser_ok_schema (e tablename : String) (st : Store) (u : User)
    (h : (FetchUser e tablename st).1 = .ok u) :
    st.keyAttr = "email" ∧
    UnmarshalMap ((st.items.find? (fun it => keyOf st.keyAttr it == some e)).getD [])
      = .ok u := by
  cases hg : (GetItem st ⟨[("email", .S e)], tablename⟩).1 with
  | error err =>
    unfold FetchUser at h
    simp only [] at h
    split at h
    · simp at h
    · rename_i heq; rw [heq] at hg; simp at hg
  | ok out =>
    obtain ⟨hk, hitem⟩ := GetItem_ok _ _ _ _ hg
    rw [FetchUser_of_get _ _ _ out hg] at h
    refine ⟨hk, ?_⟩
    rw [← hitem]
    split at h
    · simp at h
    · rename_i item hi; simp at h; rw [hi, h]

/-- The branches of `CreateUser`: rejection of the input with the client
untouched, rejection of an existing user after the fetch, or the marshal-and-put
tail after the fetch. -/
theorem CreateUser_cases (d : Deps) (req : APIGatewayProxyRequest) (tablename : String)
    (st : Store) :
    ((d.jsonUnmarshal req.Body = none ∨
        ∃ u, d.jsonUnmarshal req.Body = some u ∧ d.IsEmailValid u.Email = false) ∧
      CreateUser d req tablename st = (.error ErrorInvalidUserData, st)) ∨
    ∃ u, d.jsonUnmarshal req.Body = some u ∧ d.IsEmailValid u.Email = true ∧
      ((∃ cu, (FetchUser u.Email tablename st).1 = .ok cu ∧ cu.Email.length ≠ 0 ∧
          CreateUser d req tablename st = (.error ErrorUserAlreadyExists,
            st.record (.GetItem tablename [("email", .S u.Email)]))) ∨
        CreateUser d req tablename st =
          putUser u tablename (st.record (.GetItem tablename [("email", .S u.Email)]))) := by
  unfold CreateUser
  cases hj : d.jsonUnmarshal req.Body with
  | none => left; exact ⟨Or.inl rfl, rfl⟩
  | some u =>
    cases hv : d.IsEmailValid u.Email with
    | false => left; exact ⟨Or.inr ⟨u, rfl, hv⟩, by simp [hv]⟩
    | true =>
      right
      refine ⟨u, rfl, hv, ?_⟩
      have hs := FetchUser_snd u.Email tablename st
      rcases hf : FetchUser u.Email tablename st with ⟨r, st1⟩
      rw [hf] at hs
      simp only [] at hs
      subst hs
      cases r with
      | error err => right; simp [hv, hf]
      | ok cu =>
        by_cases hl : cu.Email.length = 0
        · right; simp [hv, hf, hl]
        · left; exact ⟨cu, rfl, hl, by simp [hv, hf, hl]⟩

theorem FetchUser_no_record (e tablename : String) (st : Store) (cu : User)
    (hno : st.hasRecord e = false) (h : (FetchUser e tablename st).1 = .ok cu) :
    cu.Email.length = 0 := by
  obtain ⟨-, hu⟩ := FetchUser_ok_schema _ _ _ _ h
  rw [find_none_of_hasRecord st e hno] at hu
  simp only [Option.getD_none, UnmarshalMap_nil] at hu
  cases hu
  rfl

theorem FetchUser_error_label (e tablename : String) (st : Store) (l : String)
    (h : (FetchUser e tablename st).1 = .error l) : l = ErrorFailedToFetchRecord := by
  unfold FetchUser at h
  simp only [] at h
  split at h
  · simp at h; exact h.symm
  · split at h
    · simp at h; exact h.symm
    · simp at h

theorem CreateUser_frame (d : Deps) (req : APIGatewayProxyRequest) (tablename : String)
    (st : Store) :
    (CreateUser d req tablename st).2.keyAttr = st.keyAttr ∧
    (st.keyAttr = "email" → (CreateUser d req tablename st).2.items = st.items) := by
  rcases CreateUser_cases d req tablename st with ⟨-, h⟩ | ⟨u, -, -, ⟨cu, -, -, h⟩ | h⟩
  · rw [h]; exact ⟨rfl, fun _ => rfl⟩
  · rw [h]; exact ⟨rfl, fun _ => rfl⟩
  · rw [h]
    refine ⟨putUser_keyAttr _ _ _, fun hk => ?_⟩
    exact (putUser_email_schema u tablename _ (by simpa [Store.record] using hk)).2

/-! ## Create twice, and create then fetch -/

/-- C2: for a store holding no record for the email of the decoded User, whose
email the validator accepts, the second CreateUser on the store the first one
leaves never fails with "User already exists"; and on a table keyed by `email`,
the attribute the existence check reads, the first CreateUser does not succeed:
it fails with "Could not dynamo put item". -/
theorem CreateUser_twice (d : Deps) (req : APIGatewayProxyRequest) (tablename : String)
    (st : Store) (u : User)
    (hdec : d.jsonUnmarshal req.Body = some u)
    (hvalid : d.IsEmailValid u.Email = true)
    (hno : st.hasRecord u.Email = false) :
    (CreateUser d req tablename (CreateUser d req tablename st).2).1
      ≠ .error "User already exists" ∧
    (st.keyAttr = "email" →
      (CreateUser d req tablename st).1 = .error "Could not dynamo put item") := by
  constructor
  · obtain ⟨hk, hit⟩ := CreateUser_frame d req tablename st
    rcases CreateUser_cases d req tablename (CreateUser d req tablename st).2 with
      ⟨-, h⟩ | ⟨u2, hu2, -, ⟨cu, hf, hl, -⟩ | h⟩
    · rw [h]; simp [ErrorInvalidUserData]
    · exfalso
      rw [hdec] at hu2
      cases hu2
      obtain ⟨hk2, -⟩ := FetchUser_ok_schema _ _ _ _ hf
      have hno2 : (CreateUser d req tablename st).2.hasRecord u.Email = false := by
        simp only [Store.hasRecord] at hno ⊢
        rw [hk, hit (hk ▸ hk2)]
        exact hno
      exact hl (FetchUser_no_record _ _ _ _ hno2 hf)
    · rw [h]
      exact putUser_not_already_exists _ _ _
  · intro hk
    rcases CreateUser_cases d req tablename st with
      ⟨hbad, -⟩ | ⟨u2, hu2, -, ⟨cu, hf, hl, -⟩ | h⟩
    · rcases hbad with hnone | ⟨u3, hu3, hv3⟩
      · rw [hdec] at hnone; cases hnone
      · rw [hdec] at hu3; cases hu3; rw [hvalid] at hv3; cases hv3
    · rw [hdec] at hu2
      cases hu2
      exact absurd (FetchUser_no_record _ _ _ _ hno hf) hl
    · rw [h]
      exact (putUser_email_schema u2 tablename _ (by simpa [Store.record] using hk)).1

theorem CreateUser_twice_witness :
    (CreateUser sampleDeps ⟨"POST", sampleBody, []⟩ tableName
      (CreateUser sampleDeps ⟨"POST", sampleBody, []⟩ tableName emptyStore).2).1
      ≠ .error "User already exists" ∧
    (CreateUser sampleDeps ⟨"POST", sampleBody, []⟩ tableName emptyStore).1
      = .error "Could not dynamo put item" :=
  ⟨(CreateUser_twice sampleDeps ⟨"POST", sampleBody, []⟩ tableName emptyStore sampleUser
      (by decide) (by decide) (by decide)).1,
   (CreateUser_twice sampleDeps ⟨"POST", sampleBody, []⟩ tableName emptyStore sampleUser
      (by decide) (by decide) (by decide)).2 (by decide)⟩

/-- C3: the item CreateUser writes for a User has no attribute `email`, the
attribute FetchUser reads; so on a table keyed by `email` CreateUser returns no
User, and on any table on which CreateUser does return the User, the FetchUser
that follows fails with "Failed to fetch record": in no store does the round
trip return the User. -/
theorem CreateUser_then_FetchUser (d : Deps) (req : APIGatewayProxyRequest)
    (tablename : String) (st : Store) (u : User) :
    (∃ item, MarshalMap u = .ok item ∧ item.lookup "email" = none) ∧
    (st.keyAttr = "email" → (CreateUser d req tablename st).1 ≠ .ok u) ∧
    ((CreateUser d req tablename st).1 = .ok u →
      (FetchUser u.Email tablename (CreateUser d req tablename st).2).1
        = .error "Failed to fetch record") := by
  have hcreate : st.keyAttr = "email" → (CreateUser d req tablename st).1 ≠ .ok u := by
    intro hk
    rcases CreateUser_cases d req tablename st with ⟨-, h⟩ | ⟨u2, -, -, ⟨cu, -, -, h⟩ | h⟩
    · rw [h]; simp
    · rw [h]; simp
    · rw [h, (putUser_email_schema u2 tablename _ (by simpa [Store.record] using hk)).1]
      simp
  refine ⟨⟨_, MarshalMap_eq u, ?_⟩, hcreate, fun hok => ?_⟩
  · have h1 : ("email" == "Email") = false := by decide
    have h2 : ("email" == "FirstName") = false := by decide
    have h3 : ("email" == "LastName") = false := by decide
    simp [List.lookup, h1, h2, h3]
  · have hk : (CreateUser d req tablename st).2.keyAttr ≠ "email" := by
      rw [(CreateUser_frame d req tablename st).1]
      exact fun hk => hcreate hk hok
    cases hf : (FetchUser u.Email tablename (CreateUser d req tablename st).2).1 with
    | ok cu => exact absurd (FetchUser_ok_schema _ _ _ _ hf).1 hk
    | error l => rw [FetchUser_error_label _ _ _ _ hf]; rfl

theorem CreateUser_then_FetchUser_witness :
    (CreateUser sampleDeps ⟨"POST", sampleBody, []⟩ tableName emptyStore).1
      = .error "Could not dynamo put item" ∧
    (FetchUser sampleUser.Email tableName
      (CreateUser sampleDeps ⟨"POST", sampleBody, []⟩ tableName emptyStore).2).1
      = .ok ⟨"", "", ""⟩ ∧
    (CreateUser sampleDeps ⟨"POST", sampleBody, []⟩ tableName emptyStore).1
      ≠ .ok sampleUser :=
  ⟨by decide, by decide,
   (CreateUser_then_FetchUser sampleDeps ⟨"POST", sampleBody, []⟩ tableName emptyStore
      sampleUser).2.1 (by decide)⟩

/-! ## Further properties of the controller -/

/-- X1: `reflect.StructTag.Lookup` finds no `json` key in any of the three tags
of User as they are written (a blank follows the colon), so the attribute names
are the Go field names; on the tag written without the blank it finds `email`. -/
theorem User_tags_not_read :
    userFields.map (fun f => StructTag.Lookup f.Tag "json") = [none, none, none] ∧
    userFields.map attrName = ["Email", "FirstName", "LastName"] ∧
    StructTag.Lookup "json:\"email\"" "json" = some "email" ∧
    attrName ⟨"Email", "json:\"email\""⟩ = "email" := by
  decide

/-- X2: UpdateUser never consults the email validator: two sets of outside
functions with the same decoder give the same result and the same store. -/
theorem UpdateUser_ignores_validator (jsonUnmarshal : String → Option User)
    (v1 v2 : String → Bool) (req : APIGatewayProxyRequest) (tablename : String)
    (st : Store) :
    UpdateUser ⟨jsonUnmarshal, v1⟩ req tablename st
      = UpdateUser ⟨jsonUnmarshal, v2⟩ req tablename st := rfl

/-- X3: when DeleteUser returns a nil error, it made exactly one call, the
DeleteItem under the key `email` taken from the query parameters, and the table
holds no record for that email afterwards. -/
theorem DeleteUser_removes_record (req : APIGatewayProxyRequest) (tablename : String)
    (st : Store) (h : (DeleteUser req tablename st).1 = none) :
    (DeleteUser req tablename st).2.hasRecord (mapIndex req.QueryStringParameters "email")
      = false ∧
    (DeleteUser req tablename st).2.calls = st.calls ++
      [.DeleteItem tablename
        [("email", .S (mapIndex req.QueryStringParameters "email"))]] := by
  obtain ⟨hk, hitems⟩ := DeleteUser_ok req tablename st h
  constructor
  · simp only [Store.hasRecord, List.any_eq_false]
    rw [hitems, hk]
    intro x hx
    simp only [List.mem_filter] at hx
    simpa using hx.2
  · have hc : (DeleteItem st ⟨[("email",
        .S (mapIndex req.QueryStringParameters "email"))], tablename⟩).2.calls
        = st.calls ++ [.DeleteItem tablename
          [("email", .S (mapIndex req.QueryStringParameters "email"))]] := by
      unfold DeleteItem
      simp only []
      split
      · rfl
      · split
        · rfl
        · split <;> rfl
    unfold DeleteUser
    simp only []
    split <;> (rename_i heq; rw [heq] at hc; exact hc)

theorem DeleteUser_removes_record_witness :
    (DeleteUser ⟨"DELETE", "", [("email", "a@b.com")]⟩ tableName oneUserStore).2.hasRecord
      (mapIndex [("email", "a@b.com")] "email") = false ∧
    (DeleteUser ⟨"DELETE", "", [("email", "a@b.com")]⟩ tableName oneUserStore).2.calls
      = oneUserStore.calls ++ [.DeleteItem tableName
        [("email", .S (mapIndex [("email", "a@b.com")] "email"))]] :=
  DeleteUser_removes_record ⟨"DELETE", "", [("email", "a@b.com")]⟩ tableName oneUserStore
    (by decide)

end GoServerless
